import Mathlib

/-!
Verification of the v0-cli configuration store (`src/utils/config.ts`) and
structured-output renderer (`src/utils/output.ts`).

JavaScript strings are modelled as `List Char` (`Str`); every character of
interest here is a single UTF-16 code unit, so `List.length` agrees with the
JavaScript `.length` used by the source.  JavaScript runtime values flowing
into the renderer are modelled by the inductive type `JsValue`; a thrown
exception is modelled by `Except RenderError`.  `console.log` output is
modelled as the list of printed lines.  `chalk` color wrappers are modelled as
the identity (the repository's own test setup mocks chalk the same way).
-/

namespace V0Cli

abbrev Str := List Char

def str (s : String) : Str := s.toList

/-- Model of the JavaScript values the renderer can receive.  `vNum` carries
an integer (the only numbers exercised by the CLI's data); `vDate` carries the
ISO-8601 string that `toISOString`/`toJSON` would produce; `vFun` models a
function value (relevant because `JSON.stringify` maps it to `undefined`). -/
inductive JsValue where
  | vNull
  | vUndefined
  | vBool (b : Bool)
  | vNum (n : Int)
  | vStr (s : Str)
  | vDate (iso : Str)
  | vArr (elems : List JsValue)
  | vObj (fields : List (Str × JsValue))
  | vFun

open JsValue

/-- JavaScript strict equality with `null` (`data[0] === null`). -/
def isNull : JsValue → Bool
  | vNull => true
  | _ => false

/-- JavaScript `typeof`. -/
def jsTypeof : JsValue → String
  | vNull => "object"
  | vUndefined => "undefined"
  | vBool _ => "boolean"
  | vNum _ => "number"
  | vStr _ => "string"
  | vDate _ => "object"
  | vArr _ => "object"
  | vObj _ => "object"
  | vFun => "function"

/-- The escape letter a character needs inside a JSON string literal, if any
(covering the characters the CLI's data can actually contain). -/
def jsonEscapeLetter (c : Char) : Option Char :=
  if c = '"' then some '"'
  else if c = '\\' then some '\\'
  else if c = '\n' then some 'n'
  else if c = '\t' then some 't'
  else if c = '\r' then some 'r'
  else none

def jsonEscapeChar (c : Char) : Str :=
  match jsonEscapeLetter c with
  | some l => '\\' :: [l]
  | none => [c]

def jsonEscape (s : Str) : Str := s.flatMap jsonEscapeChar

def jsonQuote (s : Str) : Str := ['"'] ++ jsonEscape s ++ ['"']

def numToStr (n : Int) : Str := str (toString n)

mutual

/-- Compact `JSON.stringify(v)`.  Returns `none` exactly where JavaScript's
`JSON.stringify` returns `undefined` instead of a string: for a top-level
function or `undefined`.  Inside arrays such elements serialize as `null`;
inside objects such fields are omitted.  `Date` serializes via `toJSON` to its
ISO string. -/
def jsonStr : JsValue → Option Str
  | vNull => some (str "null")
  | vUndefined => none
  | vFun => none
  | vBool b => some (str (if b then "true" else "false"))
  | vNum n => some (numToStr n)
  | vStr s => some (jsonQuote s)
  | vDate iso => some (jsonQuote iso)
  | vArr elems => some ('[' :: (List.intercalate (str ",") (jsonStrElems elems) ++ [']']))
  | vObj fields => some ('{' :: (List.intercalate (str ",") (jsonStrFields fields) ++ ['}']))

def jsonStrElems : List JsValue → List Str
  | [] => []
  | x :: xs => ((jsonStr x).getD (str "null")) :: jsonStrElems xs

def jsonStrFields : List (Str × JsValue) → List Str
  | [] => []
  | (k, v) :: fs =>
    match jsonStr v with
    | none => jsonStrFields fs
    | some jv => (jsonQuote k ++ (':' :: jv)) :: jsonStrFields fs

end

mutual

/-- Pretty `JSON.stringify(v, null, 2)` at nesting depth `depth`.  Layout
follows the JavaScript serializer: empty containers print as `[]`/`{}`,
non-empty ones put each member on its own line indented by two extra spaces. -/
def jsonPrettyAt (depth : Nat) : JsValue → Option Str
  | vNull => some (str "null")
  | vUndefined => none
  | vFun => none
  | vBool b => some (str (if b then "true" else "false"))
  | vNum n => some (numToStr n)
  | vStr s => some (jsonQuote s)
  | vDate iso => some (jsonQuote iso)
  | vArr [] => some (str "[]")
  | vArr (x :: xs) =>
    let inner := List.replicate (2 * (depth + 1)) ' '
    let closing := List.replicate (2 * depth) ' '
    some ('[' :: '\n' ::
      (List.intercalate (',' :: ['\n'])
        ((jsonPrettyElems (depth + 1) (x :: xs)).map (inner ++ ·)) ++
       ('\n' :: closing ++ [']'])))
  | vObj fields =>
    match jsonPrettyFields (depth + 1) fields with
    | [] => some (str "{}")
    | f :: fs =>
      let inner := List.replicate (2 * (depth + 1)) ' '
      let closing := List.replicate (2 * depth) ' '
      some ('{' :: '\n' ::
        (List.intercalate (',' :: ['\n']) ((f :: fs).map (inner ++ ·)) ++
         ('\n' :: closing ++ ['}'])))

def jsonPrettyElems (depth : Nat) : List JsValue → List Str
  | [] => []
  | x :: xs => ((jsonPrettyAt depth x).getD (str "null")) :: jsonPrettyElems depth xs

def jsonPrettyFields (depth : Nat) : List (Str × JsValue) → List Str
  | [] => []
  | (k, v) :: fs =>
    match jsonPrettyAt depth v with
    | none => jsonPrettyFields depth fs
    | some jv => (jsonQuote k ++ (':' :: ' ' :: jv)) :: jsonPrettyFields depth fs

end

def jsonPretty (v : JsValue) : Option Str := jsonPrettyAt 0 v

/-- An exception thrown while rendering (modelled, not caught, by the source). -/
inductive RenderError where
  | lengthOfUndefined   -- reading `.length` of `undefined` inside `truncate`
  | keysOfNullish       -- `Object.keys(null)` / `Object.keys(undefined)`
deriving DecidableEq, Repr

/-- `stringifyValue` from `formatTable` (output.ts lines 32-42).  The result
is `none` when the JavaScript function returns the value `undefined`: that
happens exactly when control reaches `JSON.stringify(val)` and the serializer
returns `undefined` (a function value).  For tree-shaped values the
serializer never throws, so the `catch { return String(val) }` arm is
unreachable in the model. -/
def stringifyValue : JsValue → Option Str
  | vNull => some []
  | vUndefined => some []
  | vStr s => some s
  | vNum n => some (numToStr n)
  | vBool b => some (str (if b then "true" else "false"))
  | vDate iso => some iso
  | v => jsonStr v

/-- `truncate` from `formatTable` (output.ts lines 27-30), applied to an
actual string. -/
def truncate (value : Str) (limit : Nat) : Str :=
  if value.length ≤ limit then value
  else value.take (limit - 1) ++ ['…']

/-- `truncate` applied to the result of `stringifyValue`: when that result is
the JavaScript value `undefined`, evaluating `value.length` throws a
`TypeError`. -/
def truncateChecked (value : Option Str) (limit : Nat) : Except RenderError Str :=
  match value with
  | none => .error .lengthOfUndefined
  | some s => .ok (truncate s limit)

/-- `String.prototype.padEnd` restricted to the space-padding use in the
source. -/
def padEnd (s : Str) (width : Nat) : Str :=
  s ++ List.replicate (width - s.length) ' '

/-- `Object.keys`, as invoked on every element of the rendered array.
`Object.keys(null)` and `Object.keys(undefined)` throw a `TypeError`; a
string or an array yields its index keys; other primitives yield no keys;
an object yields its own enumerable keys in insertion order (a `vObj` models
a JavaScript object, whose keys are unique). -/
def jsObjectKeys : JsValue → Except RenderError (List Str)
  | vNull => .error .keysOfNullish
  | vUndefined => .error .keysOfNullish
  | vObj fields => .ok (fields.map Prod.fst)
  | vArr elems => .ok ((List.range elems.length).map (fun i => str (toString i)))
  | vStr s => .ok ((List.range s.length).map (fun i => str (toString i)))
  | _ => .ok []

/-- Property access `(row as any)[h]`, returning `undefined` for a missing
property.  Arrays and strings expose their index properties and `length`.
Access on `null`/`undefined` would throw, but `formatTable` only reaches this
after `Object.keys` has already succeeded on the same element, so those cases
are unreachable and are mapped to `undefined`. -/
def jsGet (v : JsValue) (key : Str) : JsValue :=
  match v with
  | vObj fields => ((fields.find? (fun f => f.1 == key)).map Prod.snd).getD vUndefined
  | vArr elems =>
    if key == str "length" then vNum elems.length
    else (((elems.zip (List.range elems.length)).find?
      (fun p => str (toString p.2) == key)).map Prod.fst).getD vUndefined
  | vStr s =>
    if key == str "length" then vNum s.length
    else (((s.zip (List.range s.length)).find?
      (fun p => str (toString p.2) == key)).map (fun p => vStr [p.1])).getD vUndefined
  | _ => vUndefined

/-- One step of `headersSet.add(k)`: a JavaScript `Set` keeps insertion order
and ignores re-insertions. -/
def addUnique (acc : List Str) (k : Str) : List Str :=
  if k ∈ acc then acc else acc ++ [k]

/-- Header collection of `formatTable` (output.ts lines 59-63): the keys of
every row are added to one insertion-ordered set, then read back as an
array. -/
def collectHeaders (rows : List JsValue) : Except RenderError (List Str) := do
  let keyLists ← rows.mapM jsObjectKeys
  pure (keyLists.flatten.foldl addUnique [])

/-- The maximum column width fixed by the source (output.ts line 26). -/
def maxColumnWidth : Nat := 40

/-- One table cell before padding: `truncate(stringifyValue(row[h]))`. -/
def cellString (row : JsValue) (h : Str) : Except RenderError Str :=
  truncateChecked (stringifyValue (jsGet row h)) maxColumnWidth

/-- Column-width computation (output.ts line 66):
`Math.min(40, Math.max(h.length, ...data.map(row => truncate(...).length)))`.
`Math.max` with spread arguments folds `max` over `h.length` and all the
truncated cell lengths. -/
def columnWidth (rows : List JsValue) (h : Str) : Except RenderError Nat := do
  let cells ← rows.mapM (fun row => cellString row h)
  pure (min maxColumnWidth ((cells.map List.length).foldl max h.length))

/-- The `" | "` column separator joining of a row. -/
def joinCells (cells : List Str) : Str := List.intercalate (str " | ") cells

/-- Numbered-list rendering of an array of primitives (output.ts lines
51-56): `"<idx+1>. <truncate(stringifyValue(item), 120)>"` per element. -/
def renderScalarList (elems : List JsValue) : Except RenderError (List Str) :=
  elems.enum.mapM (fun p => do
    let t ← truncateChecked (stringifyValue p.2) 120
    pure (str (toString (p.1 + 1)) ++ str ". " ++ t))

/-- Table rendering of an array of records (output.ts lines 58-79): header
union, column widths, a header row, a dash separator of the header row's
length, then one padded row per record. -/
def renderRecordTable (rows : List JsValue) : Except RenderError (List Str) := do
  let headers ← collectHeaders rows
  let widths ← headers.mapM (columnWidth rows)
  let headerRow := joinCells (List.zipWith padEnd headers widths)
  let separator := List.replicate headerRow.length '-'
  let body ← rows.mapM (fun row => do
    let cells ← headers.mapM (fun h => cellString row h)
    pure (joinCells (List.zipWith padEnd cells widths)))
  pure (headerRow :: separator :: body)

/-- What `console.log(x)` prints when `x` may be the value `undefined`. -/
def logArg (x : Option Str) : Str := x.getD (str "undefined")

/-- `formatTable` (output.ts lines 25-88).  The result is the list of lines
printed to standard output, or the `TypeError` the function throws.  A `Date`
passed directly is `typeof 'object'` and lands in the `Object.entries`
branch, which yields no own enumerable properties and prints nothing. -/
def formatTable (data : JsValue) : Except RenderError (List Str) :=
  match data with
  | vArr [] => .ok [str "No items found"]
  | vArr (x :: rest) =>
    if jsTypeof x != "object" || isNull x then renderScalarList (x :: rest)
    else renderRecordTable (x :: rest)
  | vObj fields =>
    .ok (fields.map (fun f => f.1 ++ str ": " ++ logArg (stringifyValue f.2)))
  | vDate _ => .ok []
  | d => .ok [logArg (stringifyValue d)]

/-- The three output formats of the CLI. -/
inductive OutputFormat where
  | json
  | table
  | yaml
deriving DecidableEq, Repr

/-- `formatOutput` (output.ts lines 5-23).  `yamlSer` stands for the external
`YAML.stringify`; `none` models a thrown serialization error, which the
source catches, falling back to the pretty-JSON rendering.  The result is
the list of printed lines or the exception the call throws. -/
def formatOutput (yamlSer : JsValue → Option Str) (data : JsValue)
    (format : OutputFormat) : Except RenderError (List Str) :=
  match format with
  | .json => .ok [logArg (jsonPretty data)]
  | .yaml =>
    match yamlSer data with
    | some s => .ok [s]
    | none => .ok [logArg (jsonPretty data)]
  | .table => formatTable data

/-! ## Configuration store (`src/utils/config.ts`)

The backing store of the `conf` instance is modelled as one optional slot per
schema field (`none` = key absent from the settings file, which also covers a
missing file).  `config.get(k)` returns the stored value or the schema
default for that key; `config.set(k, v)` stores `v`.  Config values are plain
Lean `String`s here, since no length arithmetic is involved. -/

/-- The on-disk backing store of the `conf` instance (config.ts lines 5-26).
A wholly-`none` store models a missing settings file. -/
structure ConfStore where
  apiKeySlot : Option String
  defaultProjectSlot : Option String
  baseUrlSlot : Option String
  outputFormatSlot : Option String
deriving DecidableEq, Repr

/-- The store backing a fresh installation: no settings file at all. -/
def emptyStore : ConfStore := ⟨none, none, none, none⟩

/-- `config.get` for each field, applying the schema defaults of config.ts
lines 7-25 (empty string for the three string fields, `'table'` for
`outputFormat`). -/
def confGetApiKey (s : ConfStore) : String := s.apiKeySlot.getD ""

def confGetDefaultProject (s : ConfStore) : String := s.defaultProjectSlot.getD ""

def confGetBaseUrl (s : ConfStore) : String := s.baseUrlSlot.getD ""

def confGetOutputFormat (s : ConfStore) : String := s.outputFormatSlot.getD "table"

/-- The resolved configuration record (`CliConfig`, config.ts lines 28-33).
`outputFormat` is kept as the string the TypeScript union carries. -/
structure CliConfig where
  apiKey : String
  defaultProject : String
  baseUrl : String
  outputFormat : String
deriving DecidableEq, Repr

/-- The three members of the output-format enum, in schema order. -/
def formatEnum : List String := ["json", "table", "yaml"]

/-- `getConfig` (config.ts lines 35-44): every field read through the store
with its default, and `outputFormat` guarded to the enum — a stored value
that is falsy or outside `['json','table','yaml']` resolves to `'table'`. -/
def getConfig (s : ConfStore) : CliConfig :=
  let apiKey := confGetApiKey s
  let defaultProject := confGetDefaultProject s
  let baseUrl := confGetBaseUrl s
  let storedFormat := confGetOutputFormat s
  let outputFormat := if storedFormat ≠ "" ∧ storedFormat ∈ formatEnum
    then storedFormat else "table"
  ⟨apiKey, defaultProject, baseUrl, outputFormat⟩

/-- The four writable keys of `CliConfig`. -/
inductive ConfigKey where
  | apiKey
  | defaultProject
  | baseUrl
  | outputFormat
deriving DecidableEq, Repr

/-- `setConfig(key, value)` (config.ts lines 46-48): store one field. -/
def setConfig (s : ConfStore) (key : ConfigKey) (value : String) : ConfStore :=
  match key with
  | .apiKey => { s with apiKeySlot := some value }
  | .defaultProject => { s with defaultProjectSlot := some value }
  | .baseUrl => { s with baseUrlSlot := some value }
  | .outputFormat => { s with outputFormatSlot := some value }

/-- `clearConfig` (config.ts lines 80-82): erase the settings file. -/
def clearConfig (_ : ConfStore) : ConfStore := emptyStore

/-- JavaScript `a || b` on strings: the empty string is the only falsy
string. -/
def jsOrStr (a b : String) : String := if a ≠ "" then a else b

/-- The whitespace characters relevant to the CLI's inputs (JavaScript's
`trim` strips a few more exotic code points, none of which occur here). -/
def jsWhitespace (c : Char) : Bool := c = ' ' ∨ c = '\t' ∨ c = '\n' ∨ c = '\r'

/-- JavaScript `String.prototype.trim`: strip leading and trailing
whitespace. -/
def jsTrim (s : String) : String :=
  ⟨((s.toList.dropWhile jsWhitespace).reverse.dropWhile jsWhitespace).reverse⟩

/-- The candidate selected on config.ts line 94:
`preferredBaseUrl || process.env.V0_BASE_URL || getConfig().baseUrl`. -/
def resolveCandidate (s : ConfStore) (envBase : Option String)
    (preferred : Option String) : String :=
  jsOrStr (preferred.getD "") (jsOrStr (envBase.getD "") (getConfig s).baseUrl)

/-- `resolveBaseUrl` (config.ts lines 93-97).  `preferred` and `envBase`
model the optional CLI flag and the `V0_BASE_URL` environment variable
(`none` = not set, which `||` treats like the empty string). -/
def resolveBaseUrl (s : ConfStore) (envBase : Option String)
    (preferred : Option String) : Option String :=
  let candidate := resolveCandidate s envBase preferred
  if candidate ≠ "" ∧ jsTrim candidate ≠ "" then some candidate else none

/-- The inquirer `validate` callback of `ensureApiKey` (config.ts lines
63-68): an empty or whitespace-only answer is rejected with "API key is
required". -/
def validateApiKeyInput (input : String) : Bool :=
  ¬(input = "" ∨ (jsTrim input).length = 0)

/-- `ensureApiKey` (config.ts lines 50-78).  `preferred` is the CLI option,
`envKey` the `V0_API_KEY` environment variable, `answer` the value the
interactive prompt would produce (inquirer re-asks until `validate` passes,
so a resolved `answer` always satisfies `validateApiKeyInput`).  The result
is the returned key, the store after the call, and whether the prompt ran. -/
def ensureApiKey (s : ConfStore) (envKey : Option String)
    (preferred : Option String) (answer : String) : String × ConfStore × Bool :=
  let apiKey := jsOrStr (preferred.getD "") (jsOrStr (envKey.getD "") (getConfig s).apiKey)
  if apiKey ≠ "" then (apiKey, s, false)
  else (answer, setConfig s .apiKey answer, true)

/-! ## Specification-side definitions

These follow the spec's words rather than the source, to be compared with the
source-derived definitions above. -/

/-- The spec's "union of all keys seen across all records, preserving
first-seen order": keep each key at its first occurrence and drop its later
duplicates. -/
def specFirstSeenUnion : List Str → List Str
  | [] => []
  | k :: rest => k :: specFirstSeenUnion (rest.filter (fun x => decide (x ≠ k)))
termination_by l => l.length
decreasing_by
  exact Nat.lt_succ_of_le (List.length_filter_le _ _)

/-- Length of the first printed line of a rendering (0 if the rendering threw
or printed nothing); used to observe the emitted header row. -/
def headLineLength (r : Except RenderError (List Str)) : Nat :=
  match r with
  | .ok lines => (lines.headD []).length
  | .error _ => 0

/-- A 41-character record key, used to exhibit a header cell wider than the
40-character column limit. -/
def key41 : Str := str "a0123456789012345678901234567890123456789"

/-! ## Theorems -/

/-- C1 counterexample: a whitespace-only `preferred` argument does **not**
fall through to the environment override.  The environment variable holds
`"https://x"`, yet `resolveBaseUrl("  ")` returns absent: the `||` chain
selects the truthy whitespace-only string, the trim check then fails, and
resolution terminates with `undefined` instead of consulting the next
precedence level (the claim requires `"https://x"` here). -/
theorem resolveBaseUrl_whitespace_no_fallthrough :
    resolveBaseUrl emptyStore (some "https://x") (some "  ") = none := by decide

/-- C1 (amended): `resolveBaseUrl` selects the first non-empty candidate in
the order preferred argument, environment override, stored value ("" counts
as absent to `||`); the result is that candidate if it is not
whitespace-only, and absent otherwise — a whitespace-only selected candidate
yields absent directly rather than falling through to the next precedence
level. -/
theorem resolveBaseUrl_amended (s : ConfStore) (envBase preferred : Option String) :
    (jsTrim (resolveCandidate s envBase preferred) ≠ "" →
      resolveBaseUrl s envBase preferred = some (resolveCandidate s envBase preferred)) ∧
    (jsTrim (resolveCandidate s envBase preferred) = "" →
      resolveBaseUrl s envBase preferred = none) ∧
    (preferred.getD "" ≠ "" → resolveCandidate s envBase preferred = preferred.getD "") ∧
    (preferred.getD "" = "" → envBase.getD "" ≠ "" →
      resolveCandidate s envBase preferred = envBase.getD "") ∧
    (preferred.getD "" = "" → envBase.getD "" = "" →
      resolveCandidate s envBase preferred = (getConfig s).baseUrl) := by
  refine ⟨?_, ?_, ?_, ?_, ?_⟩
  · intro h
    have hne : resolveCandidate s envBase preferred ≠ "" := by
      intro he
      rw [he] at h
      exact h rfl
    unfold resolveBaseUrl
    rw [if_pos ⟨hne, h⟩]
  · intro h
    unfold resolveBaseUrl
    rw [if_neg (by simp [h])]
  · intro h
    unfold resolveCandidate jsOrStr
    rw [if_pos h]
  · intro h1 h2
    unfold resolveCandidate jsOrStr
    rw [if_neg (not_not_intro h1), if_pos h2]
  · intro h1 h2
    unfold resolveCandidate jsOrStr
    rw [if_neg (not_not_intro h1), if_neg (not_not_intro h2)]

/-- C1 witness: with `preferred = "https://x"` the amended theorem yields
`some "https://x"` regardless of environment and store. -/
theorem resolveBaseUrl_amended_witness :
    resolveBaseUrl ⟨none, none, some "https://stored", none⟩ (some "https://env")
      (some "https://x") = some "https://x" := by
  have h := resolveBaseUrl_amended ⟨none, none, some "https://stored", none⟩
    (some "https://env") (some "https://x")
  have hc := h.2.2.1 (by decide)
  have := h.1 (by rw [hc]; decide)
  rw [this, hc]
  rfl

/-- C2 (code bug): the table renderer throws for an array whose element is a
function value.  `JSON.stringify` of a function returns `undefined` rather
than throwing, so `stringifyValue` escapes its try/catch with `undefined`,
and `truncate` then evaluates `undefined.length`, a `TypeError` — the
claimed no-throw guarantee is violated by the code. -/
theorem formatOutput_table_function_throws :
    formatOutput (fun _ => some []) (vArr [vFun]) .table =
      .error .lengthOfUndefined := rfl

/-- C3: for the two truncation limits used by the source (40 for table
cells, 120 for numbered-list lines), a string within the limit passes
through unchanged, and a longer string truncates to exactly `limit`
characters: a `limit - 1`-character prefix of the original followed by the
ellipsis character. -/
theorem truncate_exact (v : Str) (L : Nat) (hL : L = 40 ∨ L = 120) :
    (v.length ≤ L → truncate v L = v) ∧
    (L < v.length →
      (truncate v L).length = L ∧
      (truncate v L).take (L - 1) = v.take (L - 1) ∧
      (truncate v L).getLast? = some '…') := by
  have hL1 : 1 ≤ L := by rcases hL with h | h <;> omega
  constructor
  · intro h
    simp [truncate, h]
  · intro h
    have hnot : ¬ v.length ≤ L := by omega
    have htr : truncate v L = v.take (L - 1) ++ ['…'] := by
      simp [truncate, hnot]
    have hlen : (v.take (L - 1)).length = L - 1 := by
      simp [List.length_take]
      omega
    refine ⟨?_, ?_, ?_⟩
    · rw [htr]
      simp [hlen]
      omega
    · rw [htr, List.take_append_eq_append_take, hlen, List.take_take]
      simp
    · rw [htr]
      exact List.getLast?_concat _

/-- C3 witness: the spec's own example — a 45-character value under the
40-character limit becomes a 40-character string whose first 39 characters
are the original's prefix and whose last character is the ellipsis. -/
theorem truncate_exact_witness :
    (truncate (str "012345678901234567890123456789012345678901234") 40).length = 40 ∧
    (truncate (str "012345678901234567890123456789012345678901234") 40).take 39 =
      (str "012345678901234567890123456789012345678901234").take 39 ∧
    (truncate (str "012345678901234567890123456789012345678901234") 40).getLast? =
      some '…' := by
  have h := (truncate_exact (str "012345678901234567890123456789012345678901234")
    40 (Or.inl rfl)).2 (by decide)
  exact h

/-- C9: the renderer is a deterministic function of the data, the format and
the (fixed) YAML serializer: rendering equal inputs yields identical output,
with no dependence on time, randomness or iteration non-determinism (the
embedding is a pure function precisely because the source reads no ambient
state in these paths). -/
theorem formatOutput_deterministic (yamlSer : JsValue → Option Str)
    (d₁ d₂ : JsValue) (f₁ f₂ : OutputFormat) (hd : d₁ = d₂) (hf : f₁ = f₂) :
    formatOutput yamlSer d₁ f₁ = formatOutput yamlSer d₂ f₂ := by
  rw [hd, hf]

/-- C9 witness: two renderings of the same data/format pair coincide. -/
theorem formatOutput_deterministic_witness :
    formatOutput (fun _ => none) (vStr (str "a")) .json =
      formatOutput (fun _ => none) (vStr (str "a")) .json :=
  formatOutput_deterministic (fun _ => none) (vStr (str "a")) (vStr (str "a"))
    .json .json rfl rfl

/-- C10: for a non-empty array, the choice between the numbered-list
rendering and the record-table rendering depends only on the first element:
the numbered-list branch runs iff that element is `null` or not of `typeof`
"object", whatever the remaining elements are (so a mixed array with a
scalar head is rendered entirely as numbered lines). -/
theorem formatTable_first_element_decides (x : JsValue) (rest : List JsValue) :
    ((x = vNull ∨ jsTypeof x ≠ "object") →
      formatTable (vArr (x :: rest)) = renderScalarList (x :: rest)) ∧
    (¬(x = vNull ∨ jsTypeof x ≠ "object") →
      formatTable (vArr (x :: rest)) = renderRecordTable (x :: rest)) := by
  constructor
  · intro h
    cases x <;> simp_all [formatTable, jsTypeof, isNull]
  · intro h
    push_neg at h
    cases x <;> simp_all [formatTable, jsTypeof, isNull]

/-- C10 witness: a mixed array whose first element is the number 1 is
rendered by the numbered-list branch even though its second element is a
record. -/
theorem formatTable_first_element_decides_witness :
    formatTable (vArr [vNum 1, vObj [(str "a", vNum 2)]]) =
      renderScalarList [vNum 1, vObj [(str "a", vNum 2)]] :=
  (formatTable_first_element_decides (vNum 1) [vObj [(str "a", vNum 2)]]).1
    (Or.inr (by decide))

/-- C6: for every state of the backing store, `getConfig` yields an
`outputFormat` inside the three-value enum, falling back to `"table"` when
the stored value is absent or invalid; and a store with no prior writes
(including a missing settings file, the all-`none` store) yields empty
strings for the three string fields with `outputFormat = "table"`.
`getConfig` is a total function of the store, so it never fails. -/
theorem getConfig_invariant (s : ConfStore) :
    (getConfig s).outputFormat ∈ formatEnum ∧
    (s.outputFormatSlot = none → (getConfig s).outputFormat = "table") ∧
    (∀ v, s.outputFormatSlot = some v → v ∉ formatEnum →
      (getConfig s).outputFormat = "table") ∧
    getConfig emptyStore = ⟨"", "", "", "table"⟩ := by
  refine ⟨?_, ?_, ?_, by decide⟩
  · unfold getConfig
    by_cases h : confGetOutputFormat s ≠ "" ∧ confGetOutputFormat s ∈ formatEnum
    · simp only [if_pos h]
      exact h.2
    · simp only [if_neg h]
      decide
  · intro h
    unfold getConfig confGetOutputFormat
    rw [h]
    simp only [Option.getD_none]
    rw [if_pos (by decide)]
  · intro v hv hnot
    unfold getConfig confGetOutputFormat
    rw [hv]
    simp only [Option.getD_some]
    rw [if_neg (fun hc => hnot hc.2)]

/-- C6 witness: an out-of-band invalid stored format resolves to `"table"`,
and the untouched store resolves to all defaults. -/
theorem getConfig_invariant_witness :
    (getConfig ⟨none, none, none, some "xml"⟩).outputFormat = "table" ∧
    getConfig emptyStore = ⟨"", "", "", "table"⟩ :=
  ⟨(getConfig_invariant ⟨none, none, none, some "xml"⟩).2.2.1 "xml" rfl (by decide),
   (getConfig_invariant emptyStore).2.2.2⟩

/-- C7: writing any of the three valid enum values through
`setConfig('outputFormat', v)` makes the following `getConfig()` return
exactly `v`, while a value outside the enum stored out-of-band makes
`getConfig()` return `"table"`. -/
theorem setConfig_outputFormat_roundtrip (s : ConfStore) (v : String) :
    (v ∈ formatEnum →
      (getConfig (setConfig s .outputFormat v)).outputFormat = v) ∧
    (v ∉ formatEnum →
      (getConfig { s with outputFormatSlot := some v }).outputFormat = "table") := by
  constructor
  · intro hv
    have hne : v ≠ "" := by
      rintro rfl
      revert hv
      decide
    unfold getConfig setConfig confGetOutputFormat
    simp only [Option.getD_some]
    rw [if_pos ⟨hne, hv⟩]
  · intro hv
    unfold getConfig confGetOutputFormat
    simp only [Option.getD_some]
    rw [if_neg (fun hc => hv hc.2)]

/-- C7 witness: the round trip at `v = "yaml"` on a fresh store, and the
out-of-band invalid value `"csv"`. -/
theorem setConfig_outputFormat_roundtrip_witness :
    (getConfig (setConfig emptyStore .outputFormat "yaml")).outputFormat = "yaml" ∧
    (getConfig { emptyStore with outputFormatSlot := some "csv" }).outputFormat =
      "table" :=
  ⟨(setConfig_outputFormat_roundtrip emptyStore "yaml").1 (by decide),
   (setConfig_outputFormat_roundtrip emptyStore "csv").2 (by decide)⟩

/-- C8: `ensureApiKey` resolves the key from the explicit argument, then the
environment override, then the stored key (JavaScript `||`, so "" counts as
absent); only when all three are empty does it take the prompt path, which
persists the validated answer via `setConfig('apiKey', ...)` and returns it.
`hans` records inquirer's contract that a resolved answer passed the
`validate` callback (`_hans`), and the final conjuncts show that callback
rejects empty and whitespace-only answers as local validation errors. -/
theorem ensureApiKey_resolution (s : ConfStore) (envKey preferred : Option String)
    (answer : String) (_hans : validateApiKeyInput answer = true) :
    (preferred.getD "" ≠ "" →
      ensureApiKey s envKey preferred answer = (preferred.getD "", s, false)) ∧
    (preferred.getD "" = "" → envKey.getD "" ≠ "" →
      ensureApiKey s envKey preferred answer = (envKey.getD "", s, false)) ∧
    (preferred.getD "" = "" → envKey.getD "" = "" → (getConfig s).apiKey ≠ "" →
      ensureApiKey s envKey preferred answer = ((getConfig s).apiKey, s, false)) ∧
    (preferred.getD "" = "" → envKey.getD "" = "" → (getConfig s).apiKey = "" →
      ensureApiKey s envKey preferred answer =
        (answer, { s with apiKeySlot := some answer }, true)) ∧
    validateApiKeyInput "" = false ∧ validateApiKeyInput "   " = false := by
  refine ⟨?_, ?_, ?_, ?_, by decide, by decide⟩
  · intro h1
    unfold ensureApiKey jsOrStr
    rw [if_pos h1, if_pos h1]
  · intro h1 h2
    unfold ensureApiKey jsOrStr
    rw [if_neg (not_not_intro h1), if_pos h2, if_pos h2]
  · intro h1 h2 h3
    unfold ensureApiKey jsOrStr
    rw [if_neg (not_not_intro h1), if_neg (not_not_intro h2), if_pos h3]
  · intro h1 h2 h3
    unfold ensureApiKey jsOrStr
    rw [if_neg (not_not_intro h1), if_neg (not_not_intro h2),
      if_neg (not_not_intro h3)]
    rfl

/-- C8 witness: with no CLI option, no environment variable and an empty
stored key, the prompt path returns the validated answer and persists it. -/
theorem ensureApiKey_resolution_witness :
    ensureApiKey emptyStore none none "v0-key" =
      ("v0-key", { emptyStore with apiKeySlot := some "v0-key" }, true) :=
  (ensureApiKey_resolution emptyStore none none "v0-key" (by decide)).2.2.2.1
    rfl rfl (by decide)

/-! ### Supporting lemmas for the table-layout theorems -/

/-- `Math.max(a, ...list)` (a left fold) equals `max` of `a` and the largest
list element. -/
theorem foldl_max_eq_max_foldr (l : List Nat) (a : Nat) :
    l.foldl max a = max a (l.foldr max 0) := by
  induction l generalizing a with
  | nil => simp
  | cons x xs ih =>
    rw [List.foldl_cons, ih, List.foldr_cons]
    omega

/-- A truncated string never exceeds the (positive) limit. -/
theorem truncate_length_le (s : Str) (L : Nat) (hL : 1 ≤ L) :
    (truncate s L).length ≤ L := by
  unfold truncate
  by_cases h : s.length ≤ L
  · rw [if_pos h]
    exact h
  · rw [if_neg h]
    simp [List.length_take]
    omega

/-- `padEnd` pads to exactly the target width, or leaves a longer string
untouched. -/
theorem padEnd_length (s : Str) (w : Nat) :
    (padEnd s w).length = max s.length w := by
  unfold padEnd
  simp
  omega

/-- A successful table cell is at most 40 characters before padding. -/
theorem cellString_length_le (row : JsValue) (h : Str) (c : Str)
    (hc : cellString row h = .ok c) : c.length ≤ 40 := by
  unfold cellString truncateChecked at hc
  cases hs : stringifyValue (jsGet row h) with
  | none => rw [hs] at hc; exact absurd hc (by simp)
  | some s =>
    rw [hs] at hc
    have : truncate s maxColumnWidth = c := by
      simpa using hc
    rw [← this]
    exact truncate_length_le s maxColumnWidth (by decide)

/-- Folding `headersSet.add` over a key sequence produces exactly the
first-seen-order union described by the spec. -/
theorem foldl_addUnique_eq (ks : List Str) (acc : List Str) :
    ks.foldl addUnique acc =
      acc ++ specFirstSeenUnion (ks.filter (fun k => decide (k ∉ acc))) := by
  induction ks generalizing acc with
  | nil => simp [specFirstSeenUnion]
  | cons k rest ih =>
    rw [List.foldl_cons]
    by_cases hk : k ∈ acc
    · rw [show addUnique acc k = acc from by simp [addUnique, hk]]
      rw [ih]
      congr 2
      rw [List.filter_cons_of_neg (by simp [hk])]
    · rw [show addUnique acc k = acc ++ [k] from by simp [addUnique, hk]]
      rw [ih, List.append_assoc]
      congr 1
      rw [List.filter_cons_of_pos (by simp [hk])]
      conv_rhs => rw [specFirstSeenUnion]
      rw [List.singleton_append]
      congr 1
      rw [List.filter_filter]
      congr 1
      refine List.filter_congr ?_
      intro x _
      by_cases h1 : x = k <;> by_cases h2 : x ∈ acc <;>
        simp [h1, h2, List.mem_append]

/-- The first-seen-order union has the same members as its input: it is a
genuine union of all keys. -/
theorem mem_specFirstSeenUnion (l : List Str) (a : Str) :
    a ∈ specFirstSeenUnion l ↔ a ∈ l := by
  induction l using specFirstSeenUnion.induct with
  | case1 => simp [specFirstSeenUnion]
  | case2 k rest ih =>
    rw [specFirstSeenUnion]
    by_cases ha : a = k
    · simp [ha]
    · simp only [List.mem_cons, ih, List.mem_filter]
      simp [ha]

/-- C4 counterexample: a record key of 41 characters produces an emitted
header cell of 41 characters.  With the single record
`{<41-char key>: "v"}` the header row consists of that one cell, and its
printed length is 41 > 40: `padEnd` pads header cells to the column width
but never truncates them, so the claim that no emitted column cell —
including the header cell — exceeds 40 characters is false. -/
theorem formatTable_header_cell_exceeds_40 :
    headLineLength (formatTable (vArr [vObj [(key41, vStr (str "v"))]])) = 41 := by
  decide

/-- C4 (amended): for every column of a rendered table, the display width
equals `min(40, max(header length, max over rows of truncated-cell length))`
— in particular it never exceeds 40 — and every emitted **row** cell
(truncated then padded to the width) is at most 40 characters; the emitted
header cell has length `max(header length, width)`, so it exceeds 40 exactly
when the key itself is longer than 40 characters, header cells being padded
but never truncated. -/
theorem columnWidth_and_cell_bounds (rows : List JsValue) (h : Str) (w : Nat)
    (hw : columnWidth rows h = .ok w) :
    (∃ cells, rows.mapM (fun row => cellString row h) = .ok cells ∧
      w = min 40 (max h.length ((cells.map List.length).foldr max 0))) ∧
    w ≤ 40 ∧
    (∀ row c, cellString row h = .ok c → (padEnd c w).length ≤ 40) ∧
    (padEnd h w).length = max h.length w := by
  unfold columnWidth at hw
  cases hmap : rows.mapM (fun row => cellString row h) with
  | error e =>
    rw [hmap] at hw
    exact absurd hw (by simp [Except.bind])
  | ok cells =>
    rw [hmap] at hw
    simp only [Except.bind, pure, Except.pure] at hw
    have hwval : w = min maxColumnWidth ((cells.map List.length).foldl max h.length) := by
      cases hw
      rfl
    have hw40 : w ≤ 40 := by
      rw [hwval]
      exact min_le_left _ _
    refine ⟨⟨cells, rfl, ?_⟩, hw40, ?_, padEnd_length h w⟩
    · rw [hwval, foldl_max_eq_max_foldr]
      rfl
    · intro row c hc
      have hcl : c.length ≤ 40 := cellString_length_le row h c hc
      rw [padEnd_length]
      omega

/-- C4 witness: for the single record `{id: "1"}` the `id` column's width
resolves to 2 = min(40, max(2, 1)) and is within the 40-character bound. -/
theorem columnWidth_and_cell_bounds_witness :
    columnWidth [vObj [(str "id", vStr (str "1"))]] (str "id") = .ok 2 ∧ 2 ≤ 40 :=
  ⟨rfl, (columnWidth_and_cell_bounds [vObj [(str "id", vStr (str "1"))]]
    (str "id") 2 rfl).2.1⟩

/-- C5: the header row of a table over records is the union of all keys seen
across all records in first-seen order (`collectHeaders` equals the
spec-side `specFirstSeenUnion` of the concatenated key lists, and that union
has exactly the keys of the records as members); and a record lacking some
key renders the empty string as its cell in that key's column (the padded
cell is then all spaces). -/
theorem collectHeaders_union_and_sparse_cells (rows : List JsValue)
    (keyLists : List (List Str)) (hk : rows.mapM jsObjectKeys = .ok keyLists) :
    collectHeaders rows = .ok (specFirstSeenUnion keyLists.flatten) ∧
    (∀ a, a ∈ specFirstSeenUnion keyLists.flatten ↔ a ∈ keyLists.flatten) ∧
    (∀ fields h, vObj fields ∈ rows → h ∉ fields.map Prod.fst →
      cellString (vObj fields) h = .ok []) := by
  refine ⟨?_, fun a => mem_specFirstSeenUnion _ a, ?_⟩
  · unfold collectHeaders
    rw [hk]
    show Except.ok (keyLists.flatten.foldl addUnique []) =
      Except.ok (specFirstSeenUnion keyLists.flatten)
    rw [foldl_addUnique_eq]
    have hfil : keyLists.flatten.filter (fun k => decide (k ∉ ([] : List Str))) =
        keyLists.flatten := by
      rw [List.filter_eq_self]
      intro a _
      simp
    rw [hfil, List.nil_append]
  · intro fields h _ hmiss
    have hfind : fields.find? (fun f => f.1 == h) = none := by
      rw [List.find?_eq_none]
      intro f hf
      simp only [beq_iff_eq]
      intro he
      exact hmiss (he ▸ List.mem_map_of_mem Prod.fst hf)
    unfold cellString truncateChecked
    simp [jsGet, hfind, stringifyValue, truncate]

/-- C5 witness: the spec's sparse example `[{id:"1"},{name:"X"}]` yields the
header union `[id, name]` in first-seen order, and the first record's
missing `name` key renders as an empty cell. -/
theorem collectHeaders_union_and_sparse_cells_witness :
    collectHeaders [vObj [(str "id", vStr (str "1"))], vObj [(str "name", vStr (str "X"))]] =
      .ok (specFirstSeenUnion ([[str "id"], [str "name"]] : List (List Str)).flatten) ∧
    cellString (vObj [(str "id", vStr (str "1"))]) (str "name") = .ok [] := by
  have h := collectHeaders_union_and_sparse_cells
    [vObj [(str "id", vStr (str "1"))], vObj [(str "name", vStr (str "X"))]]
    [[str "id"], [str "name"]] rfl
  exact ⟨h.1, h.2.2 [(str "id", vStr (str "1"))] (str "name") (by simp) (by decide)⟩

end V0Cli
